import Mathlib

/-!
Verification development for the NeuroCloak evaluation and alerting core.

The definitions below are a shallow embedding of the Python source:
  * `src/apps/alerts/tasks.py` (alert rule engine, notification dispatcher,
    escalation sweeper, trust-score alert path),
  * `src/evaluations/tasks.py` (trust score trend, fairness metrics, PSI).

Conventions of the embedding:
  * Python numbers are modelled as `ℚ` (exact rationals).
  * Timestamps are modelled as `Int` minutes since an arbitrary epoch;
    `timedelta(minutes=m)` is addition of `m`.
  * Dynamic Python values flowing through metric/threshold fields are the
    tagged variant `Value` (number / string / list); a comparison that would
    raise `TypeError` in Python is `Option.none`, which the `try/except`
    wrapper of `evaluate_condition` turns into `false`.
  * Database collections are lists; `QuerySet.first()` is the first match in
    list order; generated uuid primary keys are modelled by a `Nat` counter.
-/

namespace NeuroCloak

/-- A dynamically-typed Python value as it flows through metric values and
rule thresholds: a number, a string, or a (possibly nested) list.
Python tuples are merged with lists, which is faithful for every operation
`evaluate_condition` performs on them. -/
inductive Value where
  | num : ℚ → Value
  | str : String → Value
  | list : List Value → Value

mutual

/-- Python `==` between two dynamic values: numeric equality on numbers,
string equality on strings, elementwise equality on lists, and `False`
across different types. -/
def pyEq : Value → Value → Bool
  | .num a, .num b => a == b
  | .str a, .str b => a == b
  | .list a, .list b => pyEqList a b
  | _, _ => false

/-- Python `==` on two lists: equal lengths and elementwise `==`. -/
def pyEqList : List Value → List Value → Bool
  | [], [] => true
  | x :: xs, y :: ys => pyEq x y && pyEqList xs ys
  | _, _ => false

end

mutual

/-- Python three-way comparison on dynamic values; `none` models the
`TypeError` raised when the two operands are not order-comparable
(e.g. a number against a string). -/
def pyCmp : Value → Value → Option Ordering
  | .num a, .num b => some (if a < b then .lt else if b < a then .gt else .eq)
  | .str a, .str b => some (if a < b then .lt else if b < a then .gt else .eq)
  | .list a, .list b => pyCmpList a b
  | _, _ => none

/-- Python lexicographic comparison of two lists: skip equal prefixes, then
compare the first differing elements (which may raise, i.e. `none`);
if one list is a prefix of the other, the shorter is smaller. -/
def pyCmpList : List Value → List Value → Option Ordering
  | [], [] => some .eq
  | [], _ :: _ => some .lt
  | _ :: _, [] => some .gt
  | x :: xs, y :: ys => if pyEq x y then pyCmpList xs ys else pyCmp x y

end

mutual

/-- Decidable structural equality of dynamic values. -/
def Value.decEq : (a b : Value) → Decidable (a = b)
  | .num a, .num b =>
    if h : a = b then .isTrue (by rw [h]) else .isFalse (fun hc => h (Value.num.inj hc))
  | .str a, .str b =>
    if h : a = b then .isTrue (by rw [h]) else .isFalse (fun hc => h (Value.str.inj hc))
  | .list a, .list b =>
    match Value.decEqList a b with
    | .isTrue h => .isTrue (by rw [h])
    | .isFalse h => .isFalse (fun hc => h (Value.list.inj hc))
  | .num _, .str _ => .isFalse (fun hc => Value.noConfusion hc)
  | .num _, .list _ => .isFalse (fun hc => Value.noConfusion hc)
  | .str _, .num _ => .isFalse (fun hc => Value.noConfusion hc)
  | .str _, .list _ => .isFalse (fun hc => Value.noConfusion hc)
  | .list _, .num _ => .isFalse (fun hc => Value.noConfusion hc)
  | .list _, .str _ => .isFalse (fun hc => Value.noConfusion hc)

/-- Decidable structural equality of lists of dynamic values. -/
def Value.decEqList : (xs ys : List Value) → Decidable (xs = ys)
  | [], [] => .isTrue rfl
  | [], _ :: _ => .isFalse (fun hc => List.noConfusion hc)
  | _ :: _, [] => .isFalse (fun hc => List.noConfusion hc)
  | x :: xs, y :: ys =>
    match Value.decEq x y, Value.decEqList xs ys with
    | .isTrue h1, .isTrue h2 => .isTrue (by rw [h1, h2])
    | .isFalse h1, _ => .isFalse (fun hc => h1 (List.cons.inj hc).1)
    | .isTrue _, .isFalse h2 => .isFalse (fun hc => h2 (List.cons.inj hc).2)

end

instance : DecidableEq Value := Value.decEq

/-- Python `in` for a value against a list (membership via `==`). -/
def pyMem (v : Value) (ts : List Value) : Bool := ts.any (pyEq v)

/-- `isinstance(threshold, (list, tuple))`. -/
def Value.isList : Value → Bool
  | .list _ => true
  | _ => false

/-- Embedding of `evaluate_condition(value, operator, threshold)` from
`src/apps/alerts/tasks.py`.  The `Option Bool` intermediate models the
`try:` body; `getD false` models `except Exception: return False`. -/
def evaluate_condition (value : Value) (operator : String) (threshold : Value) : Bool :=
  let r : Option Bool :=
    if operator = ">" then (pyCmp value threshold).map (· = .gt)
    else if operator = "<" then (pyCmp value threshold).map (· = .lt)
    else if operator = ">=" then (pyCmp value threshold).map (· ≠ .lt)
    else if operator = "<=" then (pyCmp value threshold).map (· ≠ .gt)
    else if operator = "==" then some (pyEq value threshold)
    else if operator = "!=" then some (!pyEq value threshold)
    else if operator = "in" then
      some (match threshold with
            | .list ts => pyMem value ts
            | _ => false)
    else if operator = "not_in" then
      some (match threshold with
            | .list ts => !pyMem value ts
            | _ => true)
    else some false
  r.getD false

/-! ### Alert data model (`src/apps/alerts/models.py`) -/

/-- An `Alert` document.  The generated uuid primary key (and the `alert_id`
uuid field, which plays the same identifying role) is modelled by a single
`Nat` drawn from a fresh-id counter.  Only the fields the alerting core
reads or writes are carried. -/
structure Alert where
  alert_id : Nat
  project_id : String
  model_id : Option String
  title : String
  description : String
  alert_type : String
  severity : String
  status : String
  metric_value : Option Value
  threshold : Option Value
  rule_name : Option String
  context : List (String × Value)
  source : Option String
  created_at : Int
  updated_at : Int
  is_suppressed : Bool
deriving DecidableEq

/-- One embedded `AlertRule` condition of an `AlertRuleConfig`.
`metric_name`/`operator` use `""` for a missing/falsy entry and `threshold`
uses `none` for a missing one, matching the
`all([metric_name, operator, threshold is not None])` guard.
The model default for `severity` is `"medium"`. -/
structure RuleCondition where
  metric_name : String
  operator : String
  threshold : Option Value
  severity : String
deriving DecidableEq

/-- An `AlertRuleConfig` document (fields used by the engine). -/
structure AlertRuleConfig where
  project_id : String
  model_id : Option String
  name : String
  alert_type : String
  rules : List RuleCondition
  cooldown_minutes : Int
  last_triggered : Option Int
  is_active : Bool
deriving DecidableEq

/-- The persisted state the alerting core coordinates through: the `alerts`
collection, a fresh-id counter for generated uuids, and the ids handed to
`process_alert_notifications.delay` (the notification dispatcher), in order. -/
structure EngineState where
  alerts : List Alert
  nextId : Nat
  dispatched : List Nat
deriving DecidableEq

/-! ### Alert rule engine (`process_single_alert_rule`) -/

/-- The cooldown test at the top of `process_single_alert_rule`:
`rule.last_triggered` is set (datetimes are always truthy) and
`now < last_triggered + timedelta(minutes=cooldown_minutes)`. -/
def inCooldown (now : Int) (rule : AlertRuleConfig) : Bool :=
  match rule.last_triggered with
  | some t => now < t + rule.cooldown_minutes
  | none => false

/-- The active-alert lookup
`Alert.objects(project_id=…, model_id=…, alert_type=…, status='active', rule_name=…)`:
does this alert match the rule's key? -/
def activeMatch (rule : AlertRuleConfig) (a : Alert) : Bool :=
  a.project_id = rule.project_id && a.model_id = rule.model_id &&
    a.alert_type = rule.alert_type && a.status = "active" &&
    a.rule_name = some rule.name

/-- Replace the first element satisfying `p` by its image under `f`
(an in-place `.save()` of the document returned by `.first()`). -/
def updateFirst (p : α → Bool) (f : α → α) : List α → List α
  | [] => []
  | x :: xs => if p x then f x :: xs else x :: updateFirst p f xs

/-- The alert update performed when a matching active alert already exists:
set `metric_value`, `threshold` and `updated_at`, leave everything else. -/
def updateExisting (metric_value : Value) (threshold : Value) (now : Int)
    (a : Alert) : Alert :=
  { a with metric_value := some metric_value, threshold := some threshold,
           updated_at := now }

/-- The new alert created when no matching active alert exists.
The generated description `f"{metric_name} is {metric_value} {operator} {threshold}"`
is modelled with `reprStr`-free placeholders for the value renderings; its
shape (metric name / operator separated text) is kept, the exact Python
`str()` rendering of numbers is not load-bearing for any claim. -/
def newRuleAlert (rule : AlertRuleConfig) (cond : RuleCondition)
    (metric_value threshold : Value) (now : Int) (id : Nat) : Alert :=
  { alert_id := id
    project_id := rule.project_id
    model_id := rule.model_id
    title := rule.alert_type ++ " Alert: " ++ rule.name
    description := cond.metric_name ++ " is [value] " ++ cond.operator ++ " [threshold]"
    alert_type := rule.alert_type
    severity := cond.severity
    status := "active"
    metric_value := some metric_value
    threshold := some threshold
    rule_name := some rule.name
    context := [("rule_name", .str rule.name), ("metric_name", .str cond.metric_name),
                ("operator", .str cond.operator), ("threshold", threshold)]
    source := some "alert_rule"
    created_at := now
    updated_at := now
    is_suppressed := false }

/-- The `for rule_condition in rule.rules:` loop.  Returns the updated alert
collection, the updated fresh-id counter, and the `alerts_triggered` list
(ids of the alerts newly created by this pass, in creation order). -/
def processConditions (rule : AlertRuleConfig) (now : Int)
    (metrics : List (String × Value)) :
    List RuleCondition → List Alert → Nat → List Alert × Nat × List Nat
  | [], alerts, n => (alerts, n, [])
  | cond :: rest, alerts, n =>
    if cond.metric_name = "" || cond.operator = "" || cond.threshold.isNone then
      processConditions rule now metrics rest alerts n
    else
      match (metrics.find? (fun kv => kv.1 = cond.metric_name)).map Prod.snd,
            cond.threshold with
      | none, _ | _, none => processConditions rule now metrics rest alerts n
      | some metric_value, some threshold =>
        if evaluate_condition metric_value cond.operator threshold then
          match alerts.find? (activeMatch rule) with
          | some _ =>
            processConditions rule now metrics rest
              (updateFirst (activeMatch rule)
                (updateExisting metric_value threshold now) alerts) n
          | none =>
            let a := newRuleAlert rule cond metric_value threshold now n
            let (alerts', n', ids) :=
              processConditions rule now metrics rest (alerts ++ [a]) (n + 1)
            (alerts', n', a.alert_id :: ids)
        else
          processConditions rule now metrics rest alerts n

/-- Embedding of `process_single_alert_rule(rule)`: cooldown skip, metric
fetch emptiness check, the condition loop, then (only when the loop created
new alerts) the `last_triggered` update and the hand-off of each new alert
to the notification dispatcher.  `metrics` stands for the result of
`get_metrics_for_alert_type`, an external `MetricSource` read. -/
def processSingleAlertRule (now : Int) (metrics : List (String × Value))
    (rule : AlertRuleConfig) (st : EngineState) : AlertRuleConfig × EngineState :=
  if inCooldown now rule then (rule, st)
  else if metrics.isEmpty then (rule, st)
  else
    let (alerts', n', triggered) :=
      processConditions rule now metrics rule.rules st.alerts st.nextId
    if triggered = [] then
      (rule, { st with alerts := alerts', nextId := n' })
    else
      ({ rule with last_triggered := some now },
       { alerts := alerts', nextId := n',
         dispatched := st.dispatched ++ triggered })

/-- Two alerts that are both `active` and agree on the
(project, model, alert_type, rule_name) key. -/
def sameActiveTuple (a b : Alert) : Bool :=
  a.status == "active" && b.status == "active" &&
    a.project_id == b.project_id && a.model_id == b.model_id &&
    a.alert_type == b.alert_type && a.rule_name == b.rule_name

/-- The spec's uniqueness invariant: no two distinct alerts in the
collection are both active with the same
(project, model, alert_type, rule_name) tuple. -/
def AlertInvariant (alerts : List Alert) : Prop :=
  alerts.Pairwise fun a b => sameActiveTuple a b = false

/-! ### Trust-score alert path (`trigger_trust_score_alert`) -/

/-- A `TrustScore` document (fields read by `trigger_trust_score_alert`). -/
structure TrustScoreRec where
  project_id : String
  model_id : Option String
  score : ℚ
  threshold : ℚ
  alert_triggered : Bool
  trend_direction : String
deriving DecidableEq

/-- The alert built by `trigger_trust_score_alert`.  The Python description
interpolates the score and threshold with `:.3f` formatting; the rendering
itself is not load-bearing, so it is kept as a fixed-shape string. -/
def newTrustAlert (ts : TrustScoreRec) (now : Int) (id : Nat) : Alert :=
  { alert_id := id
    project_id := ts.project_id
    model_id := ts.model_id
    title := "Low Trust Score Alert"
    description := "Trust score has dropped to [score], below threshold of [threshold]"
    alert_type := "trust_score"
    severity := if ts.score < 1/2 then "high" else "medium"
    status := "active"
    metric_value := some (.num ts.score)
    threshold := some (.num ts.threshold)
    rule_name := none
    context := [("trend_direction", .str ts.trend_direction)]
    source := some "trust_score_evaluation"
    created_at := now
    updated_at := now
    is_suppressed := false }

/-- Embedding of `trigger_trust_score_alert(trust_score_id)`: return without
touching anything when `alert_triggered` is false; otherwise create one new
alert (no lookup for an existing one) and hand it to the dispatcher. -/
def triggerTrustScoreAlert (now : Int) (ts : TrustScoreRec)
    (st : EngineState) : EngineState :=
  if !ts.alert_triggered then st
  else
    let a := newTrustAlert ts now st.nextId
    { alerts := st.alerts ++ [a], nextId := st.nextId + 1,
      dispatched := st.dispatched ++ [a.alert_id] }

/-! ### Escalation sweeper (`check_alert_escalations`) -/

/-- Embedding of `should_escalate_alert(alert)`: critical alerts after
30 minutes, high alerts after 1 hour, strict comparisons. -/
def should_escalate_alert (now : Int) (a : Alert) : Bool :=
  if a.severity = "critical" then now > a.created_at + 30
  else if a.severity = "high" then now > a.created_at + 60
  else false

/-- The text appended to an escalated alert's description. -/
def escalationNote : String :=
  "\n\n**This alert has been escalated due to prolonged inactivity.**"

/-- Embedding of `escalate_alert(alert)`: only a `high` alert is mutated
(severity, title prefix, description note); the returned flag records
whether the escalation notification path was re-triggered. -/
def escalate_alert (a : Alert) : Alert × Bool :=
  if a.severity = "high" then
    ({ a with severity := "critical",
              title := "[ESCALATED] " ++ a.title,
              description := a.description ++ escalationNote }, true)
  else (a, false)

/-- One alert's treatment inside `check_alert_escalations`: the queryset
filter (`status='active'`, `is_suppressed=False`, `created_at` more than
30 minutes old) followed by the should-escalate test and the escalation. -/
def sweepAlert (now : Int) (a : Alert) : Alert × Bool :=
  if a.status = "active" && !a.is_suppressed && a.created_at < now - 30 then
    if should_escalate_alert now a then escalate_alert a else (a, false)
  else (a, false)

/-- Embedding of the `check_alert_escalations` periodic task over the alert
collection: every selected-and-escalated alert is saved in place and its id
handed to the notification dispatcher. -/
def check_alert_escalations (now : Int) (st : EngineState) : EngineState :=
  { alerts := st.alerts.map (fun a => (sweepAlert now a).1)
    nextId := st.nextId
    dispatched := st.dispatched ++
      (st.alerts.filter (fun a => (sweepAlert now a).2)).map (·.alert_id) }

/-! ### Notification dispatch retry (`send_alert_notification`) -/

/-- An `AlertNotification` document (fields used by the retry logic).
Model defaults: `status='pending'`, `retry_count=0`, `max_retries=3`. -/
structure AlertNotification where
  alert_id : Nat
  channel_type : String
  recipient : String
  status : String
  retry_count : Nat
  max_retries : Nat
  error_message : Option String
  sent_at : Option Int
deriving DecidableEq

/-- The notification record freshly created at the top of
`send_alert_notification`, with the model-field defaults. -/
def newNotification (alert_id : Nat) (channel_type recipient : String) :
    AlertNotification :=
  { alert_id := alert_id, channel_type := channel_type, recipient := recipient,
    status := "pending", retry_count := 0, max_retries := 3,
    error_message := none, sent_at := none }

/-- Result of one delivery attempt: the saved notification record and the
countdown (in seconds) of the re-delivery attempt scheduled through
`send_alert_notification.apply_async`, if any. -/
structure SendOutcome where
  notification : AlertNotification
  scheduled : Option Nat
deriving DecidableEq

/-- Embedding of the status/retry logic of `send_alert_notification` applied
to a notification record `n` once the channel send returned `success`:
on success `status='sent'`; on failure `status='failed'` with an error
message, and if `retry_count < max_retries` the count is incremented,
`status='retry'`, and a re-delivery is scheduled after
`60 * 2 ** retry_count` seconds (with the already-incremented count). -/
def sendStep (now : Int) (success : Bool) (n : AlertNotification) : SendOutcome :=
  if success then
    ⟨{ n with status := "sent", sent_at := some now }, none⟩
  else
    let n1 := { n with status := "failed",
                       error_message := some "Failed to send notification" }
    if n1.retry_count < n1.max_retries then
      let n2 := { n1 with retry_count := n1.retry_count + 1, status := "retry" }
      ⟨n2, some (60 * 2 ^ n2.retry_count)⟩
    else
      ⟨n1, none⟩

/-- Embedding of one full `send_alert_notification(alert_id, channel)` task
invocation: create the fresh `pending` record, attempt delivery, apply the
status/retry logic. -/
def send_alert_notification (now : Int) (success : Bool) (alert_id : Nat)
    (channel_type recipient : String) : SendOutcome :=
  sendStep now success (newNotification alert_id channel_type recipient)

/-! ### Trust-score trend (`calculate_trust_score`, `src/evaluations/tasks.py`) -/

/-- The record `calculate_trust_score` compares against:
`TrustScore.objects(…).order_by('-timestamp').skip(1).first()`.
`history` is the list of already-persisted scores for the scope, most recent
first (the new score has not been saved yet at this point), so the query
yields the second entry of `history`, if any. -/
def previousScore (history : List ℚ) : Option ℚ :=
  (history.drop 1).head?

/-- The trend classification applied to a computed trend percentage:
`stable` when `abs(trend_percentage) < 5`, else by sign. -/
def classifyTrend (tp : ℚ) : String :=
  if |tp| < 5 then "stable" else if tp > 0 then "improving" else "declining"

/-- Embedding of the trend computation of `calculate_trust_score` (the block
after the component aggregation): percentage change against `previousScore`,
`0` when the previous score is not `> 0`, and `('stable', 0.0)` when no
previous record is found. -/
def trustTrend (history : List ℚ) (score : ℚ) : String × ℚ :=
  match previousScore history with
  | none => ("stable", 0)
  | some prev =>
    let tp := if prev > 0 then (score - prev) / prev * 100 else 0
    (classifyTrend tp, tp)

/-- Modelled from the spec for comparison with the code: the spec's trend
formula uses the score of the immediately preceding TrustScore record
(the head of `history`), with `0` when there is no previous record or the
previous score is `0`. -/
def specTrendPercentage (history : List ℚ) (score : ℚ) : ℚ :=
  match history.head? with
  | none => 0
  | some prev => if prev = 0 then 0 else (score - prev) / prev * 100

/-! ### Fairness metrics (`calculate_fairness_metrics`) -/

/-- A labeled prediction record as consumed by the fairness evaluator.
`features` maps feature names to possibly-null values. -/
structure PredRecord where
  prediction : Value
  true_label : Value
  features : List (String × Option Value)
deriving DecidableEq

/-- `pred.features.get(attr)`: `none` for a missing key or a null value
(both end up dropped by pandas `dropna`). -/
def featureVal (r : PredRecord) (attr : String) : Option Value :=
  match r.features.find? (fun kv => kv.1 = attr) with
  | some kv => kv.2
  | none => none

/-- Order-preserving deduplication with an explicit equality test:
an element is kept when no previously kept element tests equal to it. -/
def distinctByAux (eq : α → α → Bool) (seen : List α) : List α → List α
  | [] => []
  | x :: xs =>
    if seen.any (fun y => eq y x) then distinctByAux eq seen xs
    else x :: distinctByAux eq (x :: seen) xs

/-- Order-preserving deduplication with an explicit equality test. -/
def distinctBy (eq : α → α → Bool) (l : List α) : List α :=
  distinctByAux eq [] l

/-- `df[attr].dropna().unique()`: the distinct non-null observed values of a
protected attribute, in order of first appearance. -/
def uniqueVals (records : List PredRecord) (attr : String) : List Value :=
  distinctBy pyEq (records.filterMap (featureVal · attr))

/-- `df[df[attr] == value]`: the group of records whose attribute equals `v`
(null entries never match). -/
def groupRecs (records : List PredRecord) (attr : String) (v : Value) :
    List PredRecord :=
  records.filter (fun r =>
    match featureVal r attr with
    | some w => pyEq w v
    | none => false)

/-- `prediction == 1` / `true_label == 1` for one record. -/
def predIsPos (r : PredRecord) : Bool := pyEq r.prediction (.num 1)

/-- `true_label == 1` for one record. -/
def labelIsPos (r : PredRecord) : Bool := pyEq r.true_label (.num 1)

/-- `(subset['prediction'] == 1).mean()` guarded by the
`if 1 in subset['prediction'].values else 0` fallback: the positive-
prediction rate, `0` on an empty subset. -/
def posRate (l : List PredRecord) : ℚ :=
  if l.length = 0 then 0 else (l.countP predIsPos : ℚ) / l.length

/-- Python `max` over a nonempty list (`0` on `[]`, unreachable there). -/
def maxQ : List ℚ → ℚ
  | [] => 0
  | x :: xs => xs.foldl max x

/-- Python `min` over a nonempty list (`0` on `[]`, unreachable there). -/
def minQ : List ℚ → ℚ
  | [] => 0
  | x :: xs => xs.foldl min x

/-- The per-group positive-prediction rates `dp_scores` for one attribute. -/
def dpScores (records : List PredRecord) (attr : String) : List ℚ :=
  (uniqueVals records attr).map (fun v => posRate (groupRecs records attr v))

/-- `dp_diff = max(dp_scores) - min(dp_scores)`. -/
def dpDiff (records : List PredRecord) (attr : String) : ℚ :=
  maxQ (dpScores records attr) - minQ (dpScores records attr)

/-- The `eo_scores` list: positive-prediction rate over the ground-truth-
positive part of each group, skipping groups with no positive labels. -/
def eoScores (records : List PredRecord) (attr : String) : List ℚ :=
  (uniqueVals records attr).filterMap (fun v =>
    let pos := (groupRecs records attr v).filter labelIsPos
    if pos.length = 0 then none else some (posRate pos))

/-- `eo_diff`, recorded only when `eo_scores` is nonempty. -/
def eoDiffOpt (records : List PredRecord) (attr : String) : Option ℚ :=
  if eoScores records attr = [] then none
  else some (maxQ (eoScores records attr) - minQ (eoScores records attr))

/-- `dp_ratio = min(dp_scores) / max(dp_scores) if max(dp_scores) > 0 else 0`. -/
def disparateImpact (records : List PredRecord) (attr : String) : ℚ :=
  if maxQ (dpScores records attr) > 0 then
    minQ (dpScores records attr) / maxQ (dpScores records attr)
  else 0

/-- The protected attributes that actually contribute metrics: the result
dicts are keyed by attribute (duplicates collapse), and attributes with
fewer than two distinct non-null observed values are skipped by the
`len(unique_values) < 2: continue` guard.  (The `df.empty` early return and
the `attr not in df.columns` guard are subsumed: with no records every
attribute has no observed values.) -/
def processedAttrs (records : List PredRecord) (attrs : List String) :
    List String :=
  (distinctBy (fun a b : String => a == b) attrs).filter
    (fun a => 2 ≤ (uniqueVals records a).length)

/-- The `all_scores` list of `calculate_fairness_metrics`: demographic-parity
gaps, then equal-opportunity gaps, then disparate impact converted to
`1 - ratio`, over the processed attributes. -/
def fairnessGaps (records : List PredRecord) (attrs : List String) : List ℚ :=
  let ps := processedAttrs records attrs
  ps.map (dpDiff records) ++ ps.filterMap (eoDiffOpt records) ++
    ps.map (fun a => 1 - disparateImpact records a)

/-- The `overall_score` of `calculate_fairness_metrics`:
`1 - np.mean(all_scores)` when any gap was computed, the initial `0.5`
otherwise. -/
def fairnessOverall (records : List PredRecord) (attrs : List String) : ℚ :=
  let gaps := fairnessGaps records attrs
  if gaps = [] then 1/2 else 1 - gaps.sum / gaps.length

/-! ### Population Stability Index (`calculate_psi`) -/

/-- Insertion of one element into a sorted list. -/
def insertSorted (x : ℚ) : List ℚ → List ℚ
  | [] => [x]
  | y :: ys => if x ≤ y then x :: y :: ys else y :: insertSorted x ys

/-- `np.sort` on rational values (insertion sort). -/
def sortQ (l : List ℚ) : List ℚ := l.foldr insertSorted []

/-- Removal of adjacent duplicates; on a sorted list this is `np.unique`. -/
def dedupAdj : List ℚ → List ℚ
  | [] => []
  | [x] => [x]
  | x :: y :: r => if x = y then dedupAdj (y :: r) else x :: dedupAdj (y :: r)

/-- `np.percentile(xs, q)` with the default linear interpolation:
on the sorted data of length `n`, position `h = q·(n−1)/100`, interpolating
between the neighbouring order statistics.  `0` on empty data (numpy raises
there; the caller's `except` path returns `0`). -/
def percentile (xs : List ℚ) (q : ℚ) : ℚ :=
  let s := sortQ xs
  let n := s.length
  if n = 0 then 0
  else
    let h : ℚ := q * (n - 1) / 100
    let i : Nat := h.floor.toNat
    let frac : ℚ := h - h.floor
    let lo := s.getD i 0
    let hi := s.getD (i + 1) lo
    lo + frac * (hi - lo)

/-- `np.linspace(0, 100, bins + 1)`: the evenly spaced quantile levels. -/
def psiQuantiles (bins : Nat) : List ℚ :=
  (List.range (bins + 1)).map fun i => (100 * i : ℚ) / bins

/-- The deduplicated quantile bin edges
`np.unique(np.percentile(ref_values, quantiles))` built from the reference
window. -/
def psiEdges (bins : Nat) (ref : List ℚ) : List ℚ :=
  dedupAdj (sortQ ((psiQuantiles bins).map (percentile ref)))

/-- The count of one bin of `np.histogram(xs, bins=edges)`: bin `i` is
`[e_i, e_{i+1})`, except the last bin which is closed on the right. -/
def binCount (edges : List ℚ) (i : Nat) (xs : List ℚ) : Nat :=
  xs.countP (fun x =>
    decide (edges.getD i 0 ≤ x) &&
      (if i + 2 = edges.length
       then decide (x ≤ edges.getD (i + 1) 0)
       else decide (x < edges.getD (i + 1) 0)))

/-- `np.histogram(xs, bins=edges)` bin counts. -/
def histogramQ (edges : List ℚ) (xs : List ℚ) : List Nat :=
  (List.range (edges.length - 1)).map fun i => binCount edges i xs

/-- `np.where(perc == 0, 0.0001, perc)`: the ε-floor on bin percentages. -/
def epsFloor (p : ℚ) : ℚ := if p = 0 then 1/10000 else p

/-- Embedding of `calculate_psi(ref_values, curr_values, bins)` on numeric
data.  `log` abstracts `np.log` (any function; the natural logarithm is not
rational-valued and no claim depends on its values).  Empty reference data
takes the `except` path of the source (numpy percentile raises) and yields
`0`; fewer than two deduplicated edges yields `0` per the explicit guard. -/
def calculate_psi (log : ℚ → ℚ) (bins : Nat) (ref curr : List ℚ) : ℚ :=
  if ref.isEmpty then 0
  else
    let edges := psiEdges bins ref
    if edges.length < 2 then 0
    else
      let refPerc := (histogramQ edges ref).map fun c => epsFloor ((c : ℚ) / ref.length)
      let currPerc := (histogramQ edges curr).map fun c => epsFloor ((c : ℚ) / curr.length)
      ((currPerc.zip refPerc).map fun p => (p.1 - p.2) * log (p.1 / p.2)).sum

/-!
## Theorems

The rational-arithmetic primitives of the library are `@[irreducible]`;
they are made semireducible within this section so that closed facts about
the embedded functions can be settled by evaluation.
-/

section Theorems

attribute [local semireducible] Rat.mul Rat.add Rat.inv Rat.sub

mutual

/-- `pyEq` is lawful: it decides structural equality of values. -/
theorem pyEq_eq_decide : (a b : Value) → pyEq a b = decide (a = b)
  | .num a, .num b => by
    simp only [pyEq]
    rw [Bool.eq_iff_iff]
    simp
  | .num _, .str _ => by simp [pyEq]
  | .num _, .list _ => by simp [pyEq]
  | .str _, .num _ => by simp [pyEq]
  | .str a, .str b => by
    simp only [pyEq]
    rw [Bool.eq_iff_iff]
    simp
  | .str _, .list _ => by simp [pyEq]
  | .list _, .num _ => by simp [pyEq]
  | .list _, .str _ => by simp [pyEq]
  | .list a, .list b => by
    rw [pyEq, pyEqList_eq_decide a b]
    simp

/-- `pyEqList` is lawful: it decides structural equality of value lists. -/
theorem pyEqList_eq_decide : (xs ys : List Value) → pyEqList xs ys = decide (xs = ys)
  | [], [] => by simp [pyEqList]
  | [], _ :: _ => by simp [pyEqList]
  | _ :: _, [] => by simp [pyEqList]
  | x :: xs, y :: ys => by
    rw [pyEqList, pyEq_eq_decide x y, pyEqList_eq_decide xs ys]
    simp

end

/-- `pyMem` decides list membership. -/
theorem pyMem_eq_decide (v : Value) (ts : List Value) :
    pyMem v ts = decide (v ∈ ts) := by
  induction ts with
  | nil => simp [pyMem]
  | cons t ts ih =>
    simp only [pyMem, List.any_cons] at *
    rw [pyEq_eq_decide, ih]
    simp [eq_comm]

/-- The number–number comparison result equals `.lt` iff `a < b`. -/
theorem ordIf_eq_lt (a b : ℚ) :
    ((if a < b then Ordering.lt else if b < a then Ordering.gt else Ordering.eq)
      = Ordering.lt) ↔ a < b := by
  rcases lt_trichotomy a b with h | h | h
  · simp [h]
  · simp [h]
  · simp [h, lt_asymm h]

/-- The number–number comparison result equals `.gt` iff `b < a`. -/
theorem ordIf_eq_gt (a b : ℚ) :
    ((if a < b then Ordering.lt else if b < a then Ordering.gt else Ordering.eq)
      = Ordering.gt) ↔ b < a := by
  rcases lt_trichotomy a b with h | h | h
  · simp [h, lt_asymm h]
  · simp [h]
  · simp [h, lt_asymm h]

/-- Claim C6: `evaluate_condition(value, operator, threshold)` implements the
documented operator table for every input: the six comparison operators apply
the corresponding comparison on numbers; `in` is membership when the
threshold is a list and `false` otherwise; `not_in` is non-membership when
the threshold is a list and `true` otherwise; unknown operators and
comparison exceptions (`pyCmp … = none`, the `TypeError` case) evaluate to
`false`; and the three documented instances hold. -/
theorem C6_operator_table (a b : ℚ) (v t : Value) (ts : List Value) (op : String) :
    (evaluate_condition (.num a) ">" (.num b) = decide (b < a)) ∧
    (evaluate_condition (.num a) "<" (.num b) = decide (a < b)) ∧
    (evaluate_condition (.num a) ">=" (.num b) = decide (b ≤ a)) ∧
    (evaluate_condition (.num a) "<=" (.num b) = decide (a ≤ b)) ∧
    (evaluate_condition (.num a) "==" (.num b) = decide (a = b)) ∧
    (evaluate_condition (.num a) "!=" (.num b) = decide (a ≠ b)) ∧
    (evaluate_condition v "in" (.list ts) = decide (v ∈ ts)) ∧
    (t.isList = false → evaluate_condition v "in" t = false) ∧
    (evaluate_condition v "not_in" (.list ts) = !decide (v ∈ ts)) ∧
    (t.isList = false → evaluate_condition v "not_in" t = true) ∧
    (op ∉ ([">", "<", ">=", "<=", "==", "!=", "in", "not_in"] : List String) →
      evaluate_condition v op t = false) ∧
    (pyCmp v t = none → (op = ">" ∨ op = "<" ∨ op = ">=" ∨ op = "<=") →
      evaluate_condition v op t = false) ∧
    (evaluate_condition (.num (2/5)) "<" (.num (1/2)) = true) ∧
    (evaluate_condition (.num 5) "in" (.list [.num 1, .num 2, .num 3]) = false) ∧
    (evaluate_condition (.str "x") "not_in" (.list []) = true) := by
  refine ⟨?_, ?_, ?_, ?_, ?_, ?_, ?_, ?_, ?_, ?_, ?_, ?_, by decide, by decide, by decide⟩
  · show decide ((if a < b then Ordering.lt else if b < a then Ordering.gt
        else Ordering.eq) = Ordering.gt) = decide (b < a)
    rw [decide_eq_decide]
    exact ordIf_eq_gt a b
  · show decide ((if a < b then Ordering.lt else if b < a then Ordering.gt
        else Ordering.eq) = Ordering.lt) = decide (a < b)
    rw [decide_eq_decide]
    exact ordIf_eq_lt a b
  · show decide ((if a < b then Ordering.lt else if b < a then Ordering.gt
        else Ordering.eq) ≠ Ordering.lt) = decide (b ≤ a)
    rw [decide_eq_decide, Ne, ordIf_eq_lt, not_lt]
  · show decide ((if a < b then Ordering.lt else if b < a then Ordering.gt
        else Ordering.eq) ≠ Ordering.gt) = decide (a ≤ b)
    rw [decide_eq_decide, Ne, ordIf_eq_gt, not_lt]
  · show pyEq (.num a) (.num b) = decide (a = b)
    rw [pyEq_eq_decide, decide_eq_decide]
    simp
  · show (!pyEq (.num a) (.num b)) = decide (a ≠ b)
    rw [pyEq_eq_decide]
    simp
  · show pyMem v ts = decide (v ∈ ts)
    exact pyMem_eq_decide v ts
  · intro h
    cases t with
    | num c => rfl
    | str s => rfl
    | list l => simp [Value.isList] at h
  · show (!pyMem v ts) = !decide (v ∈ ts)
    rw [pyMem_eq_decide]
  · intro h
    cases t with
    | num c => rfl
    | str s => rfl
    | list l => simp [Value.isList] at h
  · intro h
    simp only [List.mem_cons, List.not_mem_nil, or_false, not_or] at h
    obtain ⟨h1, h2, h3, h4, h5, h6, h7, h8⟩ := h
    simp [evaluate_condition, h1, h2, h3, h4, h5, h6, h7, h8]
  · intro hc hop
    rcases hop with h | h | h | h <;> subst h <;> simp [evaluate_condition, hc]

/-- Witness for C6: the hypothesis-carrying conjuncts hold at concrete
inputs (non-list threshold, unknown operator, type-mismatch comparison). -/
theorem C6_operator_table_witness :
    ((Value.str "s").isList = false ∧
      evaluate_condition (.num 1) "in" (.str "s") = false) ∧
    ("foo" ∉ ([">", "<", ">=", "<=", "==", "!=", "in", "not_in"] : List String) ∧
      evaluate_condition (.num 1) "foo" (.num 2) = false) ∧
    (pyCmp (.num 1) (.str "s") = none ∧
      evaluate_condition (.num 1) "<" (.str "s") = false) :=
  ⟨⟨by decide,
    (C6_operator_table 0 0 (.num 1) (.str "s") [] "x").2.2.2.2.2.2.2.1 (by decide)⟩,
   ⟨by decide,
    (C6_operator_table 0 0 (.num 1) (.num 2) [] "foo").2.2.2.2.2.2.2.2.2.2.1 (by decide)⟩,
   ⟨by decide,
    (C6_operator_table 0 0 (.num 1) (.str "s") [] "<").2.2.2.2.2.2.2.2.2.2.2.1
      (by decide) (Or.inr (Or.inl rfl))⟩⟩

/-- Claim C3: on a failed delivery attempt, an `AlertNotification` with
`retry_count < max_retries` is incremented, marked `retry`, and a
re-delivery is scheduled after `60 · 2^retry_count` seconds (with the
incremented count); one with `retry_count ≥ max_retries` stays `failed`
with no further attempt scheduled.  A fresh notification has
`retry_count = 0` and `max_retries = 3`, so its first failure yields
`retry_count = 1` and a next attempt at `now + 120` seconds. -/
theorem C3_notification_retry (now : Int) (n : AlertNotification)
    (aid : Nat) (ch rec : String) :
    (n.retry_count < n.max_retries →
      sendStep now false n =
        ⟨{ n with status := "retry", retry_count := n.retry_count + 1,
                  error_message := some "Failed to send notification" },
         some (60 * 2 ^ (n.retry_count + 1))⟩) ∧
    (n.max_retries ≤ n.retry_count →
      sendStep now false n =
        ⟨{ n with status := "failed",
                  error_message := some "Failed to send notification" }, none⟩) ∧
    ((sendStep now false n).scheduled.isSome → n.retry_count < n.max_retries) ∧
    ((newNotification aid ch rec).retry_count = 0 ∧
      (newNotification aid ch rec).max_retries = 3 ∧
      (newNotification aid ch rec).status = "pending") ∧
    ((send_alert_notification now false aid ch rec).notification.retry_count = 1 ∧
      (send_alert_notification now false aid ch rec).notification.status = "retry" ∧
      (send_alert_notification now false aid ch rec).scheduled = some 120) := by
  refine ⟨?_, ?_, ?_, ⟨rfl, rfl, rfl⟩, ⟨rfl, rfl, rfl⟩⟩
  · intro h
    simp [sendStep, h]
  · intro h
    simp [sendStep, Nat.not_lt.mpr h]
  · intro h
    by_contra hc
    simp [sendStep, hc] at h

/-- Witness for C3: a fresh notification failing (retry 0 < max 3) is
rescheduled at 120 s; one that has reached `retry_count = max_retries = 3`
stays failed with nothing scheduled. -/
theorem C3_notification_retry_witness :
    ((0 : Nat) < 3 ∧ sendStep 0 false (newNotification 1 "email" "x") =
      ⟨⟨1, "email", "x", "retry", 1, 3, some "Failed to send notification", none⟩,
       some 120⟩) ∧
    ((3 : Nat) ≤ 3 ∧ sendStep 0 false ⟨1, "email", "x", "failed", 3, 3, none, none⟩ =
      ⟨⟨1, "email", "x", "failed", 3, 3, some "Failed to send notification", none⟩,
       none⟩) :=
  ⟨⟨by decide,
    (C3_notification_retry 0 (newNotification 1 "email" "x") 1 "email" "x").1
      (by decide)⟩,
   ⟨by decide,
    (C3_notification_retry 0 ⟨1, "email", "x", "failed", 3, 3, none, none⟩
      1 "email" "x").2.1 (by decide)⟩⟩

/-- Claim C5: in the escalation sweep over active, unsuppressed alerts older
than 30 minutes, a `high` alert created more than 60 minutes ago is mutated
to `critical` with an `[ESCALATED]` title prefix and an appended description
note, and its notification path is re-triggered; a `critical` alert meeting
the 30-minute condition is identified but left entirely unmodified and
re-dispatches nothing. -/
theorem C5_escalation (now : Int) (a : Alert) (k : Nat) (ds : List Nat)
    (hact : a.status = "active") (hsup : a.is_suppressed = false) :
    (a.severity = "high" → a.created_at + 60 < now →
      check_alert_escalations now ⟨[a], k, ds⟩ =
        ⟨[{ a with
            severity := "critical"
            title := "[ESCALATED] " ++ a.title
            description := a.description ++ escalationNote }], k,
         ds ++ [a.alert_id]⟩) ∧
    (a.severity = "critical" → a.created_at + 30 < now →
      check_alert_escalations now ⟨[a], k, ds⟩ = ⟨[a], k, ds⟩) := by
  constructor
  · intro hs ht
    have h30 : a.created_at < now - 30 := by omega
    have h60 : now > a.created_at + 60 := by omega
    simp [check_alert_escalations, sweepAlert, should_escalate_alert,
      escalate_alert, hact, hsup, hs, h30, h60]
  · intro hs ht
    have h30 : a.created_at < now - 30 := by omega
    have h30' : now > a.created_at + 30 := by omega
    simp [check_alert_escalations, sweepAlert, should_escalate_alert,
      escalate_alert, hact, hsup, hs, h30, h30']

/-- Witness for C5: a high-severity active alert created 61 minutes ago is
escalated; a critical one created 31 minutes ago is untouched. -/
theorem C5_escalation_witness :
    check_alert_escalations 61
        ⟨[⟨3, "p", none, "T", "D", "drift", "high", "active", none, none, none,
           [], none, 0, 0, false⟩], 9, []⟩ =
      ⟨[⟨3, "p", none, "[ESCALATED] T", "D" ++ escalationNote, "drift",
         "critical", "active", none, none, none, [], none, 0, 0, false⟩], 9, [3]⟩ ∧
    check_alert_escalations 31
        ⟨[⟨3, "p", none, "T", "D", "drift", "critical", "active", none, none,
           none, [], none, 0, 0, false⟩], 9, []⟩ =
      ⟨[⟨3, "p", none, "T", "D", "drift", "critical", "active", none, none,
         none, [], none, 0, 0, false⟩], 9, []⟩ :=
  ⟨(C5_escalation 61 ⟨3, "p", none, "T", "D", "drift", "high", "active", none,
      none, none, [], none, 0, 0, false⟩ 9 [] rfl rfl).1 rfl (by decide),
   (C5_escalation 31 ⟨3, "p", none, "T", "D", "drift", "critical", "active",
      none, none, none, [], none, 0, 0, false⟩ 9 [] rfl rfl).2 rfl (by decide)⟩

/-- Claim C10: `trigger_trust_score_alert` does nothing when
`alert_triggered` is false; when it is true it appends exactly one new
alert of type `trust_score` (severity `high` iff the score is strictly
below 0.5, `medium` otherwise, never anything else), carrying the score as
`metric_value` and the record's threshold, and dispatches it. -/
theorem C10_trust_score_alert (now : Int) (ts : TrustScoreRec) (st : EngineState) :
    (ts.alert_triggered = false → triggerTrustScoreAlert now ts st = st) ∧
    (ts.alert_triggered = true →
      triggerTrustScoreAlert now ts st =
        { alerts := st.alerts ++ [newTrustAlert ts now st.nextId],
          nextId := st.nextId + 1,
          dispatched := st.dispatched ++ [st.nextId] }) ∧
    ((newTrustAlert ts now st.nextId).alert_type = "trust_score" ∧
      (newTrustAlert ts now st.nextId).status = "active" ∧
      (newTrustAlert ts now st.nextId).metric_value = some (.num ts.score) ∧
      (newTrustAlert ts now st.nextId).threshold = some (.num ts.threshold) ∧
      (newTrustAlert ts now st.nextId).alert_id = st.nextId) ∧
    (ts.score < 1/2 → (newTrustAlert ts now st.nextId).severity = "high") ∧
    (1/2 ≤ ts.score → (newTrustAlert ts now st.nextId).severity = "medium") ∧
    ((newTrustAlert ts now st.nextId).severity = "high" ∨
      (newTrustAlert ts now st.nextId).severity = "medium") := by
  have hsev : (newTrustAlert ts now st.nextId).severity =
      if ts.score < 1/2 then "high" else "medium" := rfl
  refine ⟨?_, ?_, ⟨rfl, rfl, rfl, rfl, rfl⟩, ?_, ?_, ?_⟩
  · intro h
    simp [triggerTrustScoreAlert, h]
  · intro h
    simp [triggerTrustScoreAlert, newTrustAlert, h]
  · intro h
    rw [hsev, if_pos h]
  · intro h
    rw [hsev, if_neg (not_lt.mpr h)]
  · by_cases h : ts.score < 1/2
    · exact Or.inl (by rw [hsev, if_pos h])
    · exact Or.inr (by rw [hsev, if_neg h])

/-- Witness for C10: a non-triggered record changes nothing; a triggered
record with score 0.4 yields one `high` trust-score alert. -/
theorem C10_trust_score_alert_witness :
    (triggerTrustScoreAlert 100 ⟨"p", none, 2/5, 7/10, false, "declining"⟩
        ⟨[], 0, []⟩ = ⟨[], 0, []⟩) ∧
    ((2 : ℚ)/5 < 1/2 ∧
      (newTrustAlert ⟨"p", none, 2/5, 7/10, true, "declining"⟩ 100 0).severity
        = "high") :=
  ⟨(C10_trust_score_alert 100 ⟨"p", none, 2/5, 7/10, false, "declining"⟩
      ⟨[], 0, []⟩).1 rfl,
   ⟨by decide,
    (C10_trust_score_alert 100 ⟨"p", none, 2/5, 7/10, true, "declining"⟩
      ⟨[], 0, []⟩).2.2.2.1 (by decide)⟩⟩

/-- Counterexample for C7: with a comparison record of score 0.70 and a new
score of 0.735 the computed trend percentage is exactly 5, and since the
`stable` rule requires `abs(tp) < 5` strictly, the code classifies the
boundary case as `improving`, not `stable` as the claim states. -/
theorem C7_boundary_counterexample :
    trustTrend [7/10, 7/10] (147/200) = ("improving", 5) ∧
    ("improving" : String) ≠ "stable" :=
  ⟨by decide, by decide⟩

/-- Claim C7 (amended): the trend is `stable` exactly when the absolute
trend percentage is strictly below 5, otherwise `improving` when positive
and `declining` otherwise; the computed pair is the classification of
`(score − prev)/prev · 100` whenever the comparison record exists with a
positive score.  The boundary instance 0.70 → 0.735 yields exactly 5 and
classifies as `improving` (not `stable`); 0.70 → 0.80 (+100/7 ≈ 14.3%)
classifies as `improving`. -/
theorem C7_trend_classification (tp : ℚ) (history : List ℚ) (score prev : ℚ) :
    (|tp| < 5 → classifyTrend tp = "stable") ∧
    (¬|tp| < 5 → 0 < tp → classifyTrend tp = "improving") ∧
    (¬|tp| < 5 → tp ≤ 0 → classifyTrend tp = "declining") ∧
    (previousScore history = some prev → 0 < prev →
      trustTrend history score =
        (classifyTrend ((score - prev) / prev * 100), (score - prev) / prev * 100)) ∧
    trustTrend [7/10, 7/10] (4/5) = ("improving", 100/7) := by
  refine ⟨?_, ?_, ?_, ?_, by decide⟩
  · intro h
    unfold classifyTrend
    rw [if_pos h]
  · intro h hp
    unfold classifyTrend
    rw [if_neg h, if_pos hp]
  · intro h hp
    unfold classifyTrend
    rw [if_neg h, if_neg (not_lt.mpr hp)]
  · intro hp hpos
    simp [trustTrend, hp, hpos]

/-- Witness for C7: concrete classifications on each side of the rule, and
the trend computation applied to a concrete two-record history. -/
theorem C7_trend_classification_witness :
    (|(3 : ℚ)| < 5 ∧ classifyTrend 3 = "stable") ∧
    (¬|(100 : ℚ)/7| < 5 ∧ 0 < (100 : ℚ)/7 ∧ classifyTrend (100/7) = "improving") ∧
    (previousScore [7/10, 7/10] = some (7/10) ∧ (0 : ℚ) < 7/10 ∧
      trustTrend [7/10, 7/10] (4/5) =
        (classifyTrend ((4/5 - 7/10) / (7/10) * 100), (4/5 - 7/10) / (7/10) * 100)) :=
  ⟨⟨by decide, (C7_trend_classification 3 [] 0 0).1 (by decide)⟩,
   ⟨by decide, by decide,
    (C7_trend_classification (100/7) [] 0 0).2.1 (by decide) (by decide)⟩,
   ⟨by decide, by decide,
    (C7_trend_classification 0 [7/10, 7/10] (4/5) (7/10)).2.2.2.1 rfl (by decide)⟩⟩

/-- Counterexample for C4: with exactly one persisted TrustScore (score 0.8)
and a new score of 0.4, the claim's formula against the immediately
preceding record gives −50, but the code's
`order_by('-timestamp').skip(1).first()` query (run before the new record
is saved) finds nothing and reports a trend percentage of 0. -/
theorem C4_previous_counterexample :
    trustTrend [4/5] (2/5) = ("stable", 0) ∧
    specTrendPercentage [4/5] (2/5) = -50 ∧
    ((0 : ℚ) ≠ -50) :=
  ⟨by decide, by decide, by decide⟩

/-- Claim C4 (amended): the comparison record is the second most recent
persisted TrustScore of the scope (the query skips the most recent one,
and the new record is saved only after the trend computation);
`trend_percentage = (score − prev)/prev · 100` when that record exists with
a positive score, and 0 when its score is not positive or when fewer than
two records are persisted. -/
theorem C4_trend_percentage (history : List ℚ) (score prev : ℚ) :
    (history.length ≤ 1 → trustTrend history score = ("stable", 0)) ∧
    (previousScore history = some prev → 0 < prev →
      (trustTrend history score).2 = (score - prev) / prev * 100) ∧
    (previousScore history = some prev → prev ≤ 0 →
      (trustTrend history score).2 = 0) ∧
    (∀ a rest, history = a :: prev :: rest → previousScore history = some prev) := by
  refine ⟨?_, ?_, ?_, ?_⟩
  · intro h
    cases history with
    | nil => rfl
    | cons x xs =>
      cases xs with
      | nil => rfl
      | cons y ys =>
        exfalso
        simp [List.length_cons] at h
  · intro hp hpos
    simp [trustTrend, hp, hpos]
  · intro hp hle
    simp [trustTrend, hp, not_lt.mpr hle]
  · intro a rest h
    subst h
    rfl

/-- Witness for C4: the degenerate single-record history yields (stable, 0);
a two-record history is compared against its second entry. -/
theorem C4_trend_percentage_witness :
    (([4/5] : List ℚ).length ≤ 1 ∧ trustTrend [4/5] (2/5) = ("stable", 0)) ∧
    (previousScore [1/2, 4/5] = some (4/5) ∧ (0 : ℚ) < 4/5 ∧
      (trustTrend [1/2, 4/5] (2/5)).2 = (2/5 - 4/5) / (4/5) * 100) :=
  ⟨⟨by decide, (C4_trend_percentage [4/5] (2/5) 0).1 (by decide)⟩,
   ⟨by decide, by decide,
    (C4_trend_percentage [1/2, 4/5] (2/5) (4/5)).2.1 rfl (by decide)⟩⟩

/-- Zipping a list with itself makes every PSI summand
`(p − p) · log(p/p)` vanish. -/
theorem sum_zip_self_mul_log (l : List ℚ) (f : ℚ → ℚ) :
    ((l.zip l).map (fun p => (p.1 - p.2) * f (p.1 / p.2))).sum = 0 := by
  induction l with
  | nil => rfl
  | cons x xs ih => simp [ih]

/-- Claim C8: for a reference window whose deduplicated quantile bin edges
number at least two (the non-degenerate case), the PSI of the window
against itself is exactly 0 — both windows are binned with the same edges,
giving identical ε-floored percentages, so every summand vanishes
regardless of the logarithm used. -/
theorem C8_psi_ref_ref (log : ℚ → ℚ) (ref : List ℚ)
    (h : 2 ≤ (psiEdges 10 ref).length) :
    calculate_psi log 10 ref ref = 0 := by
  have hne : ref.isEmpty = false := by
    by_contra hc
    rw [Bool.not_eq_false] at hc
    rw [List.isEmpty_iff.mp hc] at h
    revert h
    decide
  have h2 : ¬(psiEdges 10 ref).length < 2 := by omega
  simp only [calculate_psi, hne, Bool.false_eq_true, if_false, h2]
  exact sum_zip_self_mul_log _ log

/-- Witness for C8: the two-point reference `[0, 1]` has 11 distinct decile
edges, and its PSI against itself is 0. -/
theorem C8_psi_ref_ref_witness :
    2 ≤ (psiEdges 10 [0, 1]).length ∧
    calculate_psi (fun _ => 0) 10 [0, 1] [0, 1] = 0 :=
  ⟨by decide, C8_psi_ref_ref (fun _ => 0) [0, 1] (by decide)⟩

/-- `updateFirst` with an id-preserving update leaves the id sequence of the
collection unchanged. -/
theorem map_alertId_updateFirst (p : Alert → Bool) (f : Alert → Alert)
    (hf : ∀ a, (f a).alert_id = a.alert_id) (l : List Alert) :
    (updateFirst p f l).map (·.alert_id) = l.map (·.alert_id) := by
  induction l with
  | nil => rfl
  | cons x xs ih =>
    unfold updateFirst
    by_cases h : p x
    · simp [h, hf]
    · simp [h, ih]

/-- The condition loop only updates existing alerts in place (preserving
ids) and appends the newly created alerts, whose ids are exactly the
`alerts_triggered` output. -/
theorem processConditions_ids (rule : AlertRuleConfig) (now : Int)
    (metrics : List (String × Value)) (conds : List RuleCondition) :
    ∀ (alerts : List Alert) (n : Nat),
      ((processConditions rule now metrics conds alerts n).1).map (·.alert_id) =
        alerts.map (·.alert_id) ++
          (processConditions rule now metrics conds alerts n).2.2 := by
  induction conds with
  | nil =>
    intro alerts n
    simp [processConditions]
  | cons cond rest ih =>
    intro alerts n
    simp only [processConditions]
    split
    · exact ih alerts n
    · split
      · exact ih alerts n
      · exact ih alerts n
      · rename_i mv t _ _
        split
        · split
          · rw [ih (updateFirst (activeMatch rule)
              (updateExisting mv t now) alerts) n,
              map_alertId_updateFirst (activeMatch rule)
                (updateExisting mv t now) (fun _ => rfl) alerts]
          · have h := ih (alerts ++ [newRuleAlert rule cond mv t now n]) (n + 1)
            rcases hpc : processConditions rule now metrics rest
              (alerts ++ [newRuleAlert rule cond mv t now n]) (n + 1)
              with ⟨al', n', ids⟩
            rw [hpc] at h
            simp only [List.map_append, List.map_cons, List.map_nil] at h
            simp [h, newRuleAlert]
        · exact ih alerts n

/-- Claim C1 (amended): a rule in cooldown is skipped entirely.  Out of
cooldown, the condition loop never removes alerts; when it created no new
alert (including passes that only update existing alerts in place) the
rule — in particular `last_triggered` — and the dispatch queue are left
unchanged; when it created at least one new alert, `last_triggered` is set
to `now` and exactly the newly created alerts (the tail the pass appended)
are handed to the notification dispatcher. -/
theorem C1_rule_processing (now : Int) (metrics : List (String × Value))
    (rule : AlertRuleConfig) (st : EngineState) :
    (inCooldown now rule = true →
      processSingleAlertRule now metrics rule st = (rule, st)) ∧
    st.alerts.length ≤ ((processSingleAlertRule now metrics rule st).2).alerts.length ∧
    (((processSingleAlertRule now metrics rule st).2).alerts.length = st.alerts.length →
      (processSingleAlertRule now metrics rule st).1 = rule ∧
      ((processSingleAlertRule now metrics rule st).2).dispatched = st.dispatched) ∧
    (st.alerts.length < ((processSingleAlertRule now metrics rule st).2).alerts.length →
      (processSingleAlertRule now metrics rule st).1.last_triggered = some now ∧
      ((processSingleAlertRule now metrics rule st).2).dispatched =
        st.dispatched ++
          ((((processSingleAlertRule now metrics rule st).2).alerts.drop
            st.alerts.length).map (·.alert_id))) := by
  by_cases hc : inCooldown now rule = true
  · have hres : processSingleAlertRule now metrics rule st = (rule, st) := by
      simp [processSingleAlertRule, hc]
    refine ⟨fun _ => hres, ?_, ?_, ?_⟩
    · rw [hres]
    · rw [hres]
      exact fun _ => ⟨rfl, rfl⟩
    · rw [hres]
      intro h
      exact absurd h (lt_irrefl _)
  · by_cases hm : metrics.isEmpty = true
    · have hres : processSingleAlertRule now metrics rule st = (rule, st) := by
        simp [processSingleAlertRule, hc, hm]
      refine ⟨fun h => absurd h hc, ?_, ?_, ?_⟩
      · rw [hres]
      · rw [hres]
        exact fun _ => ⟨rfl, rfl⟩
      · rw [hres]
        intro h
        exact absurd h (lt_irrefl _)
    · rcases hpc : processConditions rule now metrics rule.rules st.alerts st.nextId
        with ⟨al', n', trig⟩
      have hids0 := processConditions_ids rule now metrics rule.rules st.alerts st.nextId
      rw [hpc] at hids0
      have hids : al'.map (·.alert_id) = st.alerts.map (·.alert_id) ++ trig := hids0
      have hlen : al'.length = st.alerts.length + trig.length := by
        have h := congrArg List.length hids
        simpa using h
      have hdrop : (al'.drop st.alerts.length).map (·.alert_id) = trig := by
        rw [List.map_drop, hids, ← List.length_map st.alerts (·.alert_id),
          List.drop_left]
      have hres : processSingleAlertRule now metrics rule st =
          if trig = [] then (rule, { st with alerts := al', nextId := n' })
          else ({ rule with last_triggered := some now },
                { alerts := al', nextId := n',
                  dispatched := st.dispatched ++ trig }) := by
        simp [processSingleAlertRule, hc, hm, hpc]
      by_cases ht : trig = []
      · rw [if_pos ht] at hres
        subst ht
        simp only [List.length_nil, Nat.add_zero] at hlen
        refine ⟨fun h => absurd h hc, ?_, ?_, ?_⟩
        · rw [hres]
          simp [hlen]
        · rw [hres]
          exact fun _ => ⟨rfl, rfl⟩
        · rw [hres]
          intro h
          simp only [hlen] at h
          omega
      · rw [if_neg ht] at hres
        have htl : 0 < trig.length := List.length_pos.mpr ht
        refine ⟨fun h => absurd h hc, ?_, ?_, ?_⟩
        · rw [hres]
          simp only
          omega
        · rw [hres]
          intro h
          simp only at h
          omega
        · rw [hres]
          intro _
          exact ⟨rfl, by rw [hdrop]⟩

/-- Witness for C1: out of cooldown, a firing condition with no matching
active alert creates one alert, sets `last_triggered = now`, and dispatches
the new alert's id. -/
theorem C1_rule_processing_witness :
    (inCooldown 1000
        ⟨"p", none, "r", "trust_score", [⟨"m", "<", some (.num 1), "high"⟩], 60,
         some 0, true⟩ = false) ∧
    (0 < ((processSingleAlertRule 1000 [("m", .num 0)]
        ⟨"p", none, "r", "trust_score", [⟨"m", "<", some (.num 1), "high"⟩], 60,
         some 0, true⟩ ⟨[], 5, []⟩).2).alerts.length) ∧
    ((processSingleAlertRule 1000 [("m", .num 0)]
        ⟨"p", none, "r", "trust_score", [⟨"m", "<", some (.num 1), "high"⟩], 60,
         some 0, true⟩ ⟨[], 5, []⟩).1.last_triggered = some 1000) ∧
    ((processSingleAlertRule 1000 [("m", .num 0)]
        ⟨"p", none, "r", "trust_score", [⟨"m", "<", some (.num 1), "high"⟩], 60,
         some 0, true⟩ ⟨[], 5, []⟩).2).dispatched =
      [] ++ ((((processSingleAlertRule 1000 [("m", .num 0)]
        ⟨"p", none, "r", "trust_score", [⟨"m", "<", some (.num 1), "high"⟩], 60,
         some 0, true⟩ ⟨[], 5, []⟩).2).alerts.drop 0).map (·.alert_id)) :=
  ⟨by decide, by decide,
   ((C1_rule_processing 1000 [("m", .num 0)]
      ⟨"p", none, "r", "trust_score", [⟨"m", "<", some (.num 1), "high"⟩], 60,
       some 0, true⟩ ⟨[], 5, []⟩).2.2.2 (by decide)).1,
   ((C1_rule_processing 1000 [("m", .num 0)]
      ⟨"p", none, "r", "trust_score", [⟨"m", "<", some (.num 1), "high"⟩], 60,
       some 0, true⟩ ⟨[], 5, []⟩).2.2.2 (by decide)).2⟩

/-- Counterexample for C1: an out-of-cooldown pass whose only effect is
updating an existing active alert (metric 5 → 0, threshold 9 → 1,
`updated_at` → now) leaves `last_triggered` at its old value `some 0`
instead of setting it to `some now = some 1000`, and dispatches nothing. -/
theorem C1_update_only_counterexample :
    processSingleAlertRule 1000 [("m", .num 0)]
        ⟨"p", none, "r", "trust_score", [⟨"m", "<", some (.num 1), "high"⟩], 60,
         some 0, true⟩
        ⟨[⟨7, "p", none, "t", "d", "trust_score", "high", "active",
           some (.num 5), some (.num 9), some "r", [], none, 0, 0, false⟩], 5, []⟩ =
      (⟨"p", none, "r", "trust_score", [⟨"m", "<", some (.num 1), "high"⟩], 60,
        some 0, true⟩,
       ⟨[⟨7, "p", none, "t", "d", "trust_score", "high", "active",
          some (.num 0), some (.num 1), some "r", [], none, 0, 1000, false⟩],
        5, []⟩) ∧
    some (0 : Int) ≠ some (1000 : Int) :=
  ⟨by decide, by decide⟩

/-- `sameActiveTuple` characterized at the proposition level. -/
theorem sameActiveTuple_iff (a b : Alert) :
    sameActiveTuple a b = true ↔
      (a.status = "active" ∧ b.status = "active" ∧
        a.project_id = b.project_id ∧ a.model_id = b.model_id ∧
        a.alert_type = b.alert_type ∧ a.rule_name = b.rule_name) := by
  simp [sameActiveTuple, and_assoc]

/-- `activeMatch` characterized at the proposition level. -/
theorem activeMatch_iff (rule : AlertRuleConfig) (x : Alert) :
    activeMatch rule x = true ↔
      (x.project_id = rule.project_id ∧ x.model_id = rule.model_id ∧
        x.alert_type = rule.alert_type ∧ x.status = "active" ∧
        x.rule_name = some rule.name) := by
  simp [activeMatch, and_assoc]

/-- Every element of `updateFirst p f l` is an element of `l` or the image
under `f` of an element of `l`. -/
theorem mem_updateFirst {p : α → Bool} {f : α → α} :
    ∀ {l : List α} {y}, y ∈ updateFirst p f l → y ∈ l ∨ ∃ x ∈ l, y = f x := by
  intro l
  induction l with
  | nil =>
    intro y h
    simp [updateFirst] at h
  | cons x xs ih =>
    intro y h
    unfold updateFirst at h
    by_cases hp : p x
    · rw [if_pos hp] at h
      rcases List.mem_cons.mp h with h1 | h1
      · exact Or.inr ⟨x, List.mem_cons_self x xs, h1⟩
      · exact Or.inl (List.mem_cons_of_mem _ h1)
    · rw [if_neg hp] at h
      rcases List.mem_cons.mp h with h1 | h1
      · exact Or.inl (h1 ▸ List.mem_cons_self x xs)
      · rcases ih h1 with h2 | ⟨x0, hx0, he⟩
        · exact Or.inl (List.mem_cons_of_mem _ h2)
        · exact Or.inr ⟨x0, List.mem_cons_of_mem _ hx0, he⟩

/-- Updating the matched alert in place (metric value, threshold, update
timestamp) cannot break the uniqueness invariant: the update leaves every
key field untouched. -/
theorem alertInvariant_updateFirst (p : Alert → Bool) (mv t : Value) (now : Int) :
    ∀ l : List Alert, AlertInvariant l →
      AlertInvariant (updateFirst p (updateExisting mv t now) l) := by
  intro l
  induction l with
  | nil =>
    intro h
    simpa [updateFirst] using h
  | cons x xs ih =>
    intro h
    rw [AlertInvariant, List.pairwise_cons] at h
    obtain ⟨hx, hxs⟩ := h
    unfold updateFirst
    by_cases hp : p x
    · rw [if_pos hp]
      rw [AlertInvariant, List.pairwise_cons]
      exact ⟨fun y hy => hx y hy, hxs⟩
    · rw [if_neg hp]
      rw [AlertInvariant, List.pairwise_cons]
      constructor
      · intro y hy
        rcases mem_updateFirst hy with h1 | ⟨x0, hx0, he⟩
        · exact hx y h1
        · have heq : sameActiveTuple x (updateExisting mv t now x0) =
              sameActiveTuple x x0 := rfl
          rw [he, heq]
          exact hx x0 hx0
      · exact ih hxs

/-- When the active-alert lookup finds nothing, appending the freshly
created alert (whose key is exactly the rule's) preserves the uniqueness
invariant. -/
theorem alertInvariant_append_new (rule : AlertRuleConfig) (cond : RuleCondition)
    (mv t : Value) (now : Int) (id : Nat) (l : List Alert)
    (h : AlertInvariant l) (hf : l.find? (activeMatch rule) = none) :
    AlertInvariant (l ++ [newRuleAlert rule cond mv t now id]) := by
  rw [AlertInvariant, List.pairwise_append]
  refine ⟨h, List.pairwise_singleton _ _, ?_⟩
  intro x hx b hb
  simp only [List.mem_singleton] at hb
  subst hb
  have hnm := List.find?_eq_none.mp hf x hx
  cases hbool : sameActiveTuple x (newRuleAlert rule cond mv t now id) with
  | false => rfl
  | true =>
    exfalso
    rw [sameActiveTuple_iff] at hbool
    obtain ⟨hs, _, hp, hm, ht', hr⟩ := hbool
    exact hnm ((activeMatch_iff rule x).mpr ⟨hp, hm, ht', hs, hr⟩)

/-- The condition loop preserves the uniqueness invariant: duplicate
triggers update the one existing active alert in place, and a new alert is
created only when the lookup found no active alert with its key. -/
theorem processConditions_invariant (rule : AlertRuleConfig) (now : Int)
    (metrics : List (String × Value)) (conds : List RuleCondition) :
    ∀ (alerts : List Alert) (n : Nat), AlertInvariant alerts →
      AlertInvariant (processConditions rule now metrics conds alerts n).1 := by
  induction conds with
  | nil =>
    intro alerts n h
    simpa [processConditions] using h
  | cons cond rest ih =>
    intro alerts n h
    simp only [processConditions]
    split
    · exact ih alerts n h
    · split
      · exact ih alerts n h
      · exact ih alerts n h
      · rename_i mv t _ _
        split
        · split
          · exact ih _ n (alertInvariant_updateFirst _ mv t now alerts h)
          · rename_i hfind
            exact ih _ (n + 1)
              (alertInvariant_append_new rule cond mv t now n alerts h hfind)
        · exact ih alerts n h

/-- Claim C2 (amended): the rule-engine path `process_single_alert_rule`
preserves the at-most-one-active-alert-per-(project, model, alert_type,
rule_name) invariant — a duplicate trigger updates the existing active
alert in place instead of creating a second one.  (The dedicated
trust-score path violates the invariant; see the counterexample.) -/
theorem C2_invariant_rule_engine (now : Int) (metrics : List (String × Value))
    (rule : AlertRuleConfig) (st : EngineState) (h : AlertInvariant st.alerts) :
    AlertInvariant ((processSingleAlertRule now metrics rule st).2).alerts := by
  unfold processSingleAlertRule
  split
  · exact h
  · split
    · exact h
    · split
      rename_i al' n' ids heq
      have hinv := processConditions_invariant rule now metrics rule.rules
        st.alerts st.nextId h
      rw [heq] at hinv
      split
      · exact hinv
      · exact hinv

/-- Witness for C2: starting from an empty collection (which satisfies the
invariant), one full rule pass keeps the invariant. -/
theorem C2_invariant_rule_engine_witness :
    AlertInvariant ([] : List Alert) ∧
    AlertInvariant ((processSingleAlertRule 1000 [("m", .num 0)]
        ⟨"p", none, "r", "trust_score", [⟨"m", "<", some (.num 1), "high"⟩], 60,
         some 0, true⟩ ⟨[], 5, []⟩).2).alerts :=
  ⟨List.Pairwise.nil,
   C2_invariant_rule_engine 1000 [("m", .num 0)]
     ⟨"p", none, "r", "trust_score", [⟨"m", "<", some (.num 1), "high"⟩], 60,
      some 0, true⟩ ⟨[], 5, []⟩ List.Pairwise.nil⟩

/-- Counterexample for C2: running `trigger_trust_score_alert` twice on the
same triggered TrustScore creates two active alerts with the identical
(project, model, `trust_score`, rule_name = None) tuple — the trust-score
path never looks for an existing active alert, so the invariant fails on
it. -/
theorem C2_trust_path_counterexample :
    ¬ AlertInvariant (triggerTrustScoreAlert 100
        ⟨"p", none, 2/5, 7/10, true, "declining"⟩
        (triggerTrustScoreAlert 100 ⟨"p", none, 2/5, 7/10, true, "declining"⟩
          ⟨[], 0, []⟩)).alerts := by
  unfold AlertInvariant
  decide

/-- The seed of a max fold bounds the fold from below. -/
theorem le_foldl_max_init : ∀ (xs : List ℚ) (a : ℚ), a ≤ xs.foldl max a := by
  intro xs
  induction xs with
  | nil => intro a; exact le_rfl
  | cons x xs ih =>
    intro a
    exact le_trans (le_max_left a x) (ih (max a x))

/-- A max fold is bounded by any upper bound of the seed and elements. -/
theorem foldl_max_le : ∀ (xs : List ℚ) (a b : ℚ), a ≤ b → (∀ x ∈ xs, x ≤ b) →
    xs.foldl max a ≤ b := by
  intro xs
  induction xs with
  | nil => intro a b ha _; exact ha
  | cons x xs ih =>
    intro a b ha hx
    exact ih (max a x) b (max_le ha (hx x (List.mem_cons_self x xs)))
      (fun y hy => hx y (List.mem_cons_of_mem _ hy))

/-- Every element bounds a max fold from below. -/
theorem mem_le_foldl_max : ∀ (xs : List ℚ) (a x : ℚ), x ∈ xs → x ≤ xs.foldl max a := by
  intro xs
  induction xs with
  | nil => intro a x h; simp at h
  | cons y ys ih =>
    intro a x h
    rcases List.mem_cons.mp h with h1 | h1
    · subst h1
      exact le_trans (le_max_right a x) (le_foldl_max_init ys (max a x))
    · exact ih (max a y) x h1

/-- The seed of a min fold bounds the fold from above. -/
theorem foldl_min_le_init : ∀ (xs : List ℚ) (a : ℚ), xs.foldl min a ≤ a := by
  intro xs
  induction xs with
  | nil => intro a; exact le_rfl
  | cons x xs ih =>
    intro a
    exact le_trans (ih (min a x)) (min_le_left a x)

/-- A min fold is bounded below by any lower bound of the seed and elements. -/
theorem le_foldl_min : ∀ (xs : List ℚ) (a b : ℚ), b ≤ a → (∀ x ∈ xs, b ≤ x) →
    b ≤ xs.foldl min a := by
  intro xs
  induction xs with
  | nil => intro a b hb _; exact hb
  | cons x xs ih =>
    intro a b hb hx
    exact ih (min a x) b (le_min hb (hx x (List.mem_cons_self x xs)))
      (fun y hy => hx y (List.mem_cons_of_mem _ hy))

/-- A min fold is bounded above by every element. -/
theorem foldl_min_le_mem : ∀ (xs : List ℚ) (a x : ℚ), x ∈ xs → xs.foldl min a ≤ x := by
  intro xs
  induction xs with
  | nil => intro a x h; simp at h
  | cons y ys ih =>
    intro a x h
    rcases List.mem_cons.mp h with h1 | h1
    · subst h1
      exact le_trans (foldl_min_le_init ys (min a x)) (min_le_right a x)
    · exact ih (min a y) x h1

/-- Every element of a nonempty list is at most its Python `max`. -/
theorem le_maxQ (l : List ℚ) (x : ℚ) (h : x ∈ l) : x ≤ maxQ l := by
  cases l with
  | nil => simp at h
  | cons y ys =>
    rcases List.mem_cons.mp h with h1 | h1
    · subst h1; exact le_foldl_max_init ys x
    · exact mem_le_foldl_max ys y x h1

/-- The Python `max` of a nonempty list respects any common upper bound. -/
theorem maxQ_le (l : List ℚ) (b : ℚ) (hne : l ≠ []) (h : ∀ x ∈ l, x ≤ b) :
    maxQ l ≤ b := by
  cases l with
  | nil => exact absurd rfl hne
  | cons y ys =>
    exact foldl_max_le ys y b (h y (List.mem_cons_self y ys))
      (fun x hx => h x (List.mem_cons_of_mem _ hx))

/-- The Python `min` of a list is at most every element. -/
theorem minQ_le (l : List ℚ) (x : ℚ) (h : x ∈ l) : minQ l ≤ x := by
  cases l with
  | nil => simp at h
  | cons y ys =>
    rcases List.mem_cons.mp h with h1 | h1
    · subst h1; exact foldl_min_le_init ys x
    · exact foldl_min_le_mem ys y x h1

/-- The Python `min` of a nonempty list respects any common lower bound. -/
theorem le_minQ (l : List ℚ) (b : ℚ) (hne : l ≠ []) (h : ∀ x ∈ l, b ≤ x) :
    b ≤ minQ l := by
  cases l with
  | nil => exact absurd rfl hne
  | cons y ys =>
    exact le_foldl_min ys y b (h y (List.mem_cons_self y ys))
      (fun x hx => h x (List.mem_cons_of_mem _ hx))

/-- On a nonempty list the Python `min` is at most the Python `max`. -/
theorem minQ_le_maxQ (l : List ℚ) (hne : l ≠ []) : minQ l ≤ maxQ l := by
  cases l with
  | nil => exact absurd rfl hne
  | cons y ys =>
    exact le_trans (minQ_le _ y (List.mem_cons_self y ys))
      (le_maxQ _ y (List.mem_cons_self y ys))

/-- A positive-prediction rate is nonnegative. -/
theorem posRate_nonneg (l : List PredRecord) : 0 ≤ posRate l := by
  unfold posRate
  split
  · exact le_rfl
  · exact div_nonneg (Nat.cast_nonneg _) (Nat.cast_nonneg _)

/-- A positive-prediction rate is at most 1. -/
theorem posRate_le_one (l : List PredRecord) : posRate l ≤ 1 := by
  unfold posRate
  split
  · exact zero_le_one
  · rename_i h
    rw [div_le_one (by exact_mod_cast Nat.pos_of_ne_zero h)]
    exact_mod_cast List.countP_le_length _

/-- At least two distinct observed values give a nonempty rate list. -/
theorem dpScores_ne_nil (records : List PredRecord) (attr : String)
    (h : 2 ≤ (uniqueVals records attr).length) : dpScores records attr ≠ [] := by
  unfold dpScores
  intro hc
  rw [List.map_eq_nil_iff] at hc
  rw [hc] at h
  simp at h

/-- Every demographic-parity group rate lies in `[0, 1]`. -/
theorem dpScores_mem_bounds (records : List PredRecord) (attr : String) :
    ∀ x ∈ dpScores records attr, 0 ≤ x ∧ x ≤ 1 := by
  intro x hx
  unfold dpScores at hx
  rcases List.mem_map.mp hx with ⟨v, _, rfl⟩
  exact ⟨posRate_nonneg _, posRate_le_one _⟩

/-- Every equal-opportunity group rate lies in `[0, 1]`. -/
theorem eoScores_mem_bounds (records : List PredRecord) (attr : String) :
    ∀ x ∈ eoScores records attr, 0 ≤ x ∧ x ≤ 1 := by
  intro x hx
  unfold eoScores at hx
  rcases List.mem_filterMap.mp hx with ⟨v, _, hv⟩
  simp only at hv
  split at hv
  · simp at hv
  · rw [Option.some_inj] at hv
    subst hv
    exact ⟨posRate_nonneg _, posRate_le_one _⟩

/-- The demographic-parity gap of a processed attribute lies in `[0, 1]`. -/
theorem dpDiff_bounds (records : List PredRecord) (attr : String)
    (h2 : 2 ≤ (uniqueVals records attr).length) :
    0 ≤ dpDiff records attr ∧ dpDiff records attr ≤ 1 := by
  unfold dpDiff
  have hne := dpScores_ne_nil records attr h2
  have hb := dpScores_mem_bounds records attr
  have hmm := minQ_le_maxQ _ hne
  have h1 : maxQ (dpScores records attr) ≤ 1 :=
    maxQ_le _ 1 hne (fun x hx => (hb x hx).2)
  have h0 : 0 ≤ minQ (dpScores records attr) :=
    le_minQ _ 0 hne (fun x hx => (hb x hx).1)
  constructor <;> linarith

/-- A recorded equal-opportunity gap lies in `[0, 1]`. -/
theorem eoDiffOpt_bounds (records : List PredRecord) (attr : String) (g : ℚ)
    (h : eoDiffOpt records attr = some g) : 0 ≤ g ∧ g ≤ 1 := by
  unfold eoDiffOpt at h
  split at h
  · simp at h
  · rename_i hne
    rw [Option.some_inj] at h
    subst h
    have hb := eoScores_mem_bounds records attr
    have hmm := minQ_le_maxQ _ hne
    have h1 : maxQ (eoScores records attr) ≤ 1 :=
      maxQ_le _ 1 hne (fun x hx => (hb x hx).2)
    have h0 : 0 ≤ minQ (eoScores records attr) :=
      le_minQ _ 0 hne (fun x hx => (hb x hx).1)
    constructor <;> linarith

/-- The disparate-impact ratio of a processed attribute lies in `[0, 1]`. -/
theorem disparateImpact_bounds (records : List PredRecord) (attr : String)
    (h2 : 2 ≤ (uniqueVals records attr).length) :
    0 ≤ disparateImpact records attr ∧ disparateImpact records attr ≤ 1 := by
  unfold disparateImpact
  have hne := dpScores_ne_nil records attr h2
  have hb := dpScores_mem_bounds records attr
  split
  · rename_i hpos
    constructor
    · exact div_nonneg
        (le_minQ _ 0 hne (fun x hx => (hb x hx).1)) (le_of_lt hpos)
    · rw [div_le_one hpos]
      exact minQ_le_maxQ _ hne
  · norm_num

/-- Every gap gathered into `all_scores` lies in `[0, 1]`. -/
theorem fairnessGaps_bounds (records : List PredRecord) (attrs : List String) :
    ∀ g ∈ fairnessGaps records attrs, 0 ≤ g ∧ g ≤ 1 := by
  intro g hg
  unfold fairnessGaps at hg
  have hdiv : ∀ a ∈ processedAttrs records attrs,
      2 ≤ (uniqueVals records a).length := by
    intro a ha
    unfold processedAttrs at ha
    have := (List.mem_filter.mp ha).2
    exact of_decide_eq_true this
  rcases List.mem_append.mp hg with hg1 | hg3
  · rcases List.mem_append.mp hg1 with hg1 | hg2
    · rcases List.mem_map.mp hg1 with ⟨a, ha, rfl⟩
      exact dpDiff_bounds records a (hdiv a ha)
    · rcases List.mem_filterMap.mp hg2 with ⟨a, _, heq⟩
      exact eoDiffOpt_bounds records a g heq
  · rcases List.mem_map.mp hg3 with ⟨a, ha, rfl⟩
    have := disparateImpact_bounds records a (hdiv a ha)
    constructor <;> linarith [this.1, this.2]

/-- The sum of a list of values bounded by 1 is at most its length. -/
theorem sum_le_length_of_le_one (l : List ℚ) (h : ∀ x ∈ l, x ≤ 1) :
    l.sum ≤ (l.length : ℚ) := by
  induction l with
  | nil => simp
  | cons x xs ih =>
    simp only [List.sum_cons, List.length_cons]
    have h1 := ih (fun y hy => h y (List.mem_cons_of_mem _ hy))
    have hx := h x (List.mem_cons_self x xs)
    push_cast
    linarith

/-- The sum of a list of nonnegative values is nonnegative. -/
theorem sum_nonneg_of_nonneg (l : List ℚ) (h : ∀ x ∈ l, 0 ≤ x) : 0 ≤ l.sum := by
  induction l with
  | nil => simp
  | cons x xs ih =>
    simp only [List.sum_cons]
    have h1 := ih (fun y hy => h y (List.mem_cons_of_mem _ hy))
    have hx := h x (List.mem_cons_self x xs)
    linarith

/-- Appending an attribute that fails the kept-predicate does not change the
filtered deduplicated attribute list. -/
theorem filter_distinctByAux_append (p : String → Bool)
    (eq : String → String → Bool) (x : String) (hp : p x = false) :
    ∀ (l seen : List String),
      (distinctByAux eq seen (l ++ [x])).filter p =
        (distinctByAux eq seen l).filter p := by
  intro l
  induction l with
  | nil =>
    intro seen
    simp only [List.nil_append, distinctByAux]
    split
    · rfl
    · simp [hp]
  | cons y ys ih =>
    intro seen
    simp only [List.cons_append, distinctByAux]
    split
    · exact ih seen
    · simp only [List.filter_cons, List.append_eq, ih (y :: seen)]

/-- Appending an attribute with fewer than two distinct observed values
leaves the processed-attribute list unchanged. -/
theorem processedAttrs_append_nondiverse (records : List PredRecord)
    (attrs : List String) (attr : String)
    (h : (uniqueVals records attr).length < 2) :
    processedAttrs records (attrs ++ [attr]) = processedAttrs records attrs := by
  unfold processedAttrs distinctBy
  exact filter_distinctByAux_append _ _ attr
    (decide_eq_false (by omega)) attrs []

/-- Claim C9: the fairness evaluator's overall score lies in `[0, 1]`; it
equals `1 − mean(all_scores)` (demographic-parity and equal-opportunity
gaps plus `1 − disparate-impact ratio`) when any gap was computed and
defaults to `0.5` otherwise; an attribute with fewer than two distinct
observed values is excluded from the computation — it is never processed,
and adding it to the attribute list does not change the score. -/
theorem C9_fairness_overall (records : List PredRecord) (attrs : List String)
    (attr : String) :
    (0 ≤ fairnessOverall records attrs ∧ fairnessOverall records attrs ≤ 1) ∧
    (fairnessGaps records attrs ≠ [] →
      fairnessOverall records attrs =
        1 - (fairnessGaps records attrs).sum / (fairnessGaps records attrs).length) ∧
    (fairnessGaps records attrs = [] → fairnessOverall records attrs = 1/2) ∧
    ((uniqueVals records attr).length < 2 →
      attr ∉ processedAttrs records attrs ∧
      fairnessOverall records (attrs ++ [attr]) = fairnessOverall records attrs) := by
  have hdef : ∀ as : List String, fairnessOverall records as =
      if fairnessGaps records as = [] then 1/2
      else 1 - (fairnessGaps records as).sum / (fairnessGaps records as).length :=
    fun _ => rfl
  refine ⟨?_, ?_, ?_, ?_⟩
  · rw [hdef]
    split
    · norm_num
    · rename_i hne
      have hb := fairnessGaps_bounds records attrs
      have hlen : 0 < ((fairnessGaps records attrs).length : ℚ) := by
        have := List.length_pos.mpr hne
        exact_mod_cast this
      have hs0 : 0 ≤ (fairnessGaps records attrs).sum :=
        sum_nonneg_of_nonneg _ (fun x hx => (hb x hx).1)
      have hs1 : (fairnessGaps records attrs).sum ≤
          ((fairnessGaps records attrs).length : ℚ) :=
        sum_le_length_of_le_one _ (fun x hx => (hb x hx).2)
      have hm1 : (fairnessGaps records attrs).sum /
          (fairnessGaps records attrs).length ≤ 1 := (div_le_one hlen).mpr hs1
      have hm0 : 0 ≤ (fairnessGaps records attrs).sum /
          (fairnessGaps records attrs).length := div_nonneg hs0 (le_of_lt hlen)
      constructor <;> linarith
  · intro h
    rw [hdef, if_neg h]
  · intro h
    rw [hdef, if_pos h]
  · intro h
    constructor
    · intro hmem
      unfold processedAttrs at hmem
      have := of_decide_eq_true (List.mem_filter.mp hmem).2
      omega
    · have hg : fairnessGaps records (attrs ++ [attr]) = fairnessGaps records attrs := by
        unfold fairnessGaps
        rw [processedAttrs_append_nondiverse records attrs attr h]
      rw [hdef, hdef, hg]

/-- Witness for C9: on a concrete labeled dataset, attribute `g` (two
groups) yields three gaps of 1/2 each and an overall score of 1/2, while
the single-valued attribute `h` is excluded and leaves the score
unchanged. -/
theorem C9_fairness_overall_witness :
    (fairnessGaps
        [⟨.num 1, .num 1, [("g", some (.str "a")), ("h", some (.str "x"))]⟩,
         ⟨.num 0, .num 1, [("g", some (.str "a")), ("h", some (.str "x"))]⟩,
         ⟨.num 1, .num 1, [("g", some (.str "b")), ("h", some (.str "x"))]⟩,
         ⟨.num 1, .num 0, [("g", some (.str "b")), ("h", some (.str "x"))]⟩]
        ["g"] ≠ [] ∧
      fairnessOverall
        [⟨.num 1, .num 1, [("g", some (.str "a")), ("h", some (.str "x"))]⟩,
         ⟨.num 0, .num 1, [("g", some (.str "a")), ("h", some (.str "x"))]⟩,
         ⟨.num 1, .num 1, [("g", some (.str "b")), ("h", some (.str "x"))]⟩,
         ⟨.num 1, .num 0, [("g", some (.str "b")), ("h", some (.str "x"))]⟩]
        ["g"] =
        1 - (fairnessGaps
        [⟨.num 1, .num 1, [("g", some (.str "a")), ("h", some (.str "x"))]⟩,
         ⟨.num 0, .num 1, [("g", some (.str "a")), ("h", some (.str "x"))]⟩,
         ⟨.num 1, .num 1, [("g", some (.str "b")), ("h", some (.str "x"))]⟩,
         ⟨.num 1, .num 0, [("g", some (.str "b")), ("h", some (.str "x"))]⟩]
        ["g"]).sum / (fairnessGaps
        [⟨.num 1, .num 1, [("g", some (.str "a")), ("h", some (.str "x"))]⟩,
         ⟨.num 0, .num 1, [("g", some (.str "a")), ("h", some (.str "x"))]⟩,
         ⟨.num 1, .num 1, [("g", some (.str "b")), ("h", some (.str "x"))]⟩,
         ⟨.num 1, .num 0, [("g", some (.str "b")), ("h", some (.str "x"))]⟩]
        ["g"]).length) ∧
    ((uniqueVals
        [⟨.num 1, .num 1, [("g", some (.str "a")), ("h", some (.str "x"))]⟩,
         ⟨.num 0, .num 1, [("g", some (.str "a")), ("h", some (.str "x"))]⟩,
         ⟨.num 1, .num 1, [("g", some (.str "b")), ("h", some (.str "x"))]⟩,
         ⟨.num 1, .num 0, [("g", some (.str "b")), ("h", some (.str "x"))]⟩]
        "h").length < 2 ∧
      fairnessOverall
        [⟨.num 1, .num 1, [("g", some (.str "a")), ("h", some (.str "x"))]⟩,
         ⟨.num 0, .num 1, [("g", some (.str "a")), ("h", some (.str "x"))]⟩,
         ⟨.num 1, .num 1, [("g", some (.str "b")), ("h", some (.str "x"))]⟩,
         ⟨.num 1, .num 0, [("g", some (.str "b")), ("h", some (.str "x"))]⟩]
        (["g"] ++ ["h"]) =
      fairnessOverall
        [⟨.num 1, .num 1, [("g", some (.str "a")), ("h", some (.str "x"))]⟩,
         ⟨.num 0, .num 1, [("g", some (.str "a")), ("h", some (.str "x"))]⟩,
         ⟨.num 1, .num 1, [("g", some (.str "b")), ("h", some (.str "x"))]⟩,
         ⟨.num 1, .num 0, [("g", some (.str "b")), ("h", some (.str "x"))]⟩]
        ["g"]) :=
  ⟨⟨by decide,
    (C9_fairness_overall
      [⟨.num 1, .num 1, [("g", some (.str "a")), ("h", some (.str "x"))]⟩,
       ⟨.num 0, .num 1, [("g", some (.str "a")), ("h", some (.str "x"))]⟩,
       ⟨.num 1, .num 1, [("g", some (.str "b")), ("h", some (.str "x"))]⟩,
       ⟨.num 1, .num 0, [("g", some (.str "b")), ("h", some (.str "x"))]⟩]
      ["g"] "h").2.1 (by decide)⟩,
   ⟨by decide,
    ((C9_fairness_overall
      [⟨.num 1, .num 1, [("g", some (.str "a")), ("h", some (.str "x"))]⟩,
       ⟨.num 0, .num 1, [("g", some (.str "a")), ("h", some (.str "x"))]⟩,
       ⟨.num 1, .num 1, [("g", some (.str "b")), ("h", some (.str "x"))]⟩,
       ⟨.num 1, .num 0, [("g", some (.str "b")), ("h", some (.str "x"))]⟩]
      ["g"] "h").2.2.2 (by decide)).2⟩⟩

end Theorems

end NeuroCloak
